import Mathlib

/-!
Verification development for the financial-email processing assistant.

The Python sources are shallowly embedded: strings are lists of characters
(`Str`), Python `Decimal`/`float` values are rationals (`ℚ`, constructed with
`Rat.divInt` so that concrete computations reduce), Python dictionaries are
association lists in insertion order, functions that may raise an exception
return `Except Unit _`, and the external collaborators (live exchange-rate
HTTP sources, the LLM agent call, the database insert) are taken as oracle
parameters, since the repository treats them as opaque network calls.
Python `re.search` uses of the fixed patterns in the source are compiled by
hand into deterministic scanners (the patterns involved have no ambiguous
backtracking beyond what the scanners reproduce; `\s`, `str.lower`,
`str.strip` are modelled on ASCII).
-/

/-- Python strings, modelled as lists of characters. -/
abbrev Str := List Char

/-- Python `str.lower()` (ASCII). -/
def pyLower (s : Str) : Str := s.map Char.toLower

/-- Python `str.upper()` (ASCII). -/
def pyUpper (s : Str) : Str := s.map Char.toUpper

/-- Python whitespace (the characters matched by `\s` / stripped by `strip()`), ASCII part. -/
def isPySpace (c : Char) : Bool :=
  c = ' ' || c = '\t' || c = '\n' || c = '\r' || c = '\x0b' || c = '\x0c'

/-- Python substring test `needle in hay`. -/
def strContains (needle : Str) : Str → Bool
  | [] => needle.isEmpty
  | c :: t => needle.isPrefixOf (c :: t) || strContains needle t

/-- Python `dict.get(k)` on an insertion-ordered association list. -/
def alookup {α : Type} (k : Str) : List (Str × α) → Option α
  | [] => none
  | (k1, v) :: t => if k = k1 then some v else alookup k t

/-- Python `d[k] = v` on an insertion-ordered association list:
updating an existing key keeps its position, a new key is appended. -/
def aupsert {α : Type} (k : Str) (v : α) : List (Str × α) → List (Str × α)
  | [] => [(k, v)]
  | (k1, v1) :: t => if k1 = k then (k1, v) :: t else (k1, v1) :: aupsert k v t

/-! ## Exchange-rate service (`exchange_service.py`)

`ExchangeRateService.get_exchange_rate` with its one-hour cache and tiered
fallback.  The two live HTTP sources (`_try_exchangerate_api`,
`_try_frankfurter_api`) are network calls and enter the model as oracle
functions returning `Option ℚ`; wall-clock time is a natural-number
parameter `now` measured in seconds. -/

/-- The static fallback table of `_try_fallback_rates` (rate of one unit of the
keyed currency in USD), with the `Decimal` literals of the source as exact
rationals. -/
def fallback_rates : List (Str × ℚ) :=
  [("EUR".toList, Rat.divInt 110 100), ("GBP".toList, Rat.divInt 127 100),
   ("JPY".toList, Rat.divInt 68 10000), ("CNY".toList, Rat.divInt 14 100),
   ("CAD".toList, Rat.divInt 74 100), ("AUD".toList, Rat.divInt 67 100),
   ("CHF".toList, Rat.divInt 112 100), ("HKD".toList, Rat.divInt 13 100),
   ("SGD".toList, Rat.divInt 74 100), ("INR".toList, Rat.divInt 12 1000),
   ("KRW".toList, Rat.divInt 75 100000), ("BRL".toList, Rat.divInt 20 100),
   ("MXN".toList, Rat.divInt 59 1000), ("RUB".toList, Rat.divInt 11 1000)]

/-- `ExchangeRateService._try_fallback_rates`.  The final guard models the
Python truthiness test `if usd_from_rate and usd_to_rate` (a `Decimal` is
falsy when zero or `None`). -/
def try_fallback_rates (from_currency to_currency : Str) : Option ℚ :=
  if pyUpper to_currency = "USD".toList then
    alookup (pyUpper from_currency) fallback_rates
  else
    match alookup (pyUpper from_currency) fallback_rates,
          alookup (pyUpper to_currency) fallback_rates with
    | some usd_from_rate, some usd_to_rate =>
        if usd_from_rate ≠ 0 ∧ usd_to_rate ≠ 0 then
          some (usd_from_rate / usd_to_rate)
        else none
    | _, _ => none

/-- The mutable state of `ExchangeRateService`: `self.cache` and
`self.cache_expiry` (expiry instants in seconds). -/
structure ExchangeState where
  cache : List (Str × ℚ)
  cache_expiry : List (Str × ℕ)
deriving DecidableEq

/-- `ExchangeRateService._is_cache_valid`. -/
def is_cache_valid (st : ExchangeState) (now : ℕ) (cache_key : Str) : Bool :=
  match alookup cache_key st.cache, alookup cache_key st.cache_expiry with
  | some _, some expiry => now < expiry
  | _, _ => false

/-- `ExchangeRateService.get_exchange_rate`.  `live1`/`live2` are the two live
rate sources; the returned pair is (result, updated service state).  A fresh
rate is cached for one hour (3600 seconds). -/
def get_exchange_rate (live1 live2 : Str → Str → Option ℚ) (st : ExchangeState)
    (now : ℕ) (from_currency to_currency : Str) : Option ℚ × ExchangeState :=
  if pyUpper from_currency = pyUpper to_currency then (some 1, st)
  else
    let cache_key := from_currency ++ '_' :: to_currency
    if is_cache_valid st now cache_key then (alookup cache_key st.cache, st)
    else
      let rate :=
        match live1 from_currency to_currency with
        | some r => some r
        | none =>
          match live2 from_currency to_currency with
          | some r => some r
          | none => try_fallback_rates from_currency to_currency
      match rate with
      | some r =>
          (some r, ⟨aupsert cache_key r st.cache,
                    aupsert cache_key (now + 3600) st.cache_expiry⟩)
      | none => (none, st)

/-! ## Rule-based field extraction (`email_processor.py`)

The fixed `re.search` patterns of `EmailProcessor` are compiled by hand into
deterministic scanners.  Each scanner `...At` attempts the whole pattern at
the head of the string and returns the capture group; `reSearch` supplies the
leftmost-match semantics of `re.search`.  `re.IGNORECASE` is modelled by
case-folding the fixed tokens (ASCII). -/

/-- Case-insensitive literal token match: drops `tok` from the front of `s`. -/
def dropTokenCI : Str → Str → Option Str
  | [], s => some s
  | _ :: _, [] => none
  | c :: ct, d :: dt => if c.toLower = d.toLower then dropTokenCI ct dt else none

/-- Numeric value of a digit string. -/
def digitsVal (ds : Str) : ℕ := ds.foldl (fun acc c => 10 * acc + (c.toNat - 48)) 0

/-- Python `float()` applied to the comma-stripped capture group of an amount
pattern.  The group shape is digits/commas optionally followed by a dot and
two digits, so after stripping commas the possible shapes are `""` (Python
raises `ValueError`, modelled as `none`), `ddd`, `ddd.dd` and `.dd`. -/
def parseAmount (s : Str) : Option ℚ :=
  let ip := s.takeWhile Char.isDigit
  match s.drop ip.length with
  | [] => if ip.isEmpty then none else some (Rat.divInt (Int.ofNat (digitsVal ip)) 1)
  | '.' :: ds =>
      if ds.all Char.isDigit ∧ (ip ≠ [] ∨ ds ≠ []) then
        some (Rat.divInt (Int.ofNat (digitsVal (ip ++ ds))) (Int.ofNat (10 ^ ds.length)))
      else none
  | _ => none

/-- One amount pattern anchored at the head of `s`: the fixed token, then
`\s*`, then the group `([0-9,]+(?:\.[0-9]{2})?)` (greedy; the optional
two-digit decimal tail is taken when present). -/
def amountGroupAt (tok : Str) (s : Str) : Option Str :=
  match dropTokenCI tok s with
  | none => none
  | some rest =>
    let rest2 := rest.dropWhile isPySpace
    let digits := rest2.takeWhile (fun c => c.isDigit || c = ',')
    if digits.isEmpty then none
    else
      match rest2.drop digits.length with
      | '.' :: d1 :: d2 :: _ =>
          if d1.isDigit ∧ d2.isDigit then some (digits ++ '.' :: [d1, d2])
          else some digits
      | _ => some digits

/-- `re.search`: try the anchored scanner at every start position, leftmost
match first. -/
def reSearch (f : Str → Option Str) : Str → Option Str
  | [] => f []
  | c :: t =>
    match f (c :: t) with
    | some g => some g
    | none => reSearch f t

/-- Leftmost match of one amount pattern in `s`. -/
def searchAmount (tok : Str) (s : Str) : Option Str := reSearch (amountGroupAt tok) s

/-- The ordered `amount_patterns` list of `_extract_amount_and_currency`:
the regex source text (used by the currency-determination loop) paired with
the fixed token the pattern starts with. -/
def amount_patterns : List (Str × Str) :=
  [("\\$\\s*([0-9,]+(?:\\.[0-9]{2})?)".toList, "$".toList),
   ("USD\\s*([0-9,]+(?:\\.[0-9]{2})?)".toList, "USD".toList),
   ("€\\s*([0-9,]+(?:\\.[0-9]{2})?)".toList, "€".toList),
   ("EUR\\s*([0-9,]+(?:\\.[0-9]{2})?)".toList, "EUR".toList),
   ("¥\\s*([0-9,]+(?:\\.[0-9]{2})?)".toList, "¥".toList),
   ("CNY\\s*([0-9,]+(?:\\.[0-9]{2})?)".toList, "CNY".toList),
   ("amount:\\s*([0-9,]+(?:\\.[0-9]{2})?)".toList, "amount:".toList),
   ("total:\\s*([0-9,]+(?:\\.[0-9]{2})?)".toList, "total:".toList)]

/-- The `currency_symbols` dictionary, in insertion order. -/
def currency_symbols : List (Str × Str) :=
  [("$".toList, "USD".toList), ("USD".toList, "USD".toList),
   ("€".toList, "EUR".toList), ("EUR".toList, "EUR".toList),
   ("¥".toList, "CNY".toList), ("CNY".toList, "CNY".toList)]

/-- The currency-determination loop of `_extract_amount_and_currency`:
`currency = 'USD'` by default, the first symbol that occurs as a substring of
the regex source text wins. -/
def currency_for (pattern : Str) : Str :=
  match currency_symbols.find? (fun sc => strContains sc.1 pattern) with
  | some sc => sc.2
  | none => "USD".toList

/-- The pattern loop of `_extract_amount_and_currency`: first pattern (in
list order) with a match anywhere in the body wins; `Except.error` models the
`ValueError` that `float('')` raises when the matched group is all commas. -/
def extract_amount_go : List (Str × Str) → Str → Except Unit (Option (ℚ × Str))
  | [], _ => .ok none
  | (src, tok) :: rest, body =>
    match searchAmount tok body with
    | some grp =>
        match parseAmount (grp.filter (fun c => c ≠ ',')) with
        | some amt => .ok (some (amt, currency_for src))
        | none => .error ()
    | none => extract_amount_go rest body

/-- `EmailProcessor._extract_amount_and_currency`. -/
def extract_amount_and_currency (body : Str) : Except Unit (Option (ℚ × Str)) :=
  extract_amount_go amount_patterns body

/-- `EmailProcessor._identify_status`. -/
def identify_status (body : Str) : Str :=
  let body_lower := pyLower body
  if ["payment received".toList, "paid in full".toList,
      "payment completed".toList].any (fun p => strContains p body_lower) then
    "完成付款".toList
  else if ["payment due".toList, "please pay".toList,
      "amount due".toList].any (fun p => strContains p body_lower) then
    "收款".toList
  else if ["make payment".toList, "pay now".toList,
      "payment required".toList].any (fun p => strContains p body_lower) then
    "付款".toList
  else "其他".toList

/-- `EmailProcessor._identify_document_type`. -/
def identify_document_type (subject : Str) : Str :=
  let subject_lower := pyLower subject
  if strContains "invoice".toList subject_lower then "invoice".toList
  else if strContains "order".toList subject_lower then "order".toList
  else if strContains "statement".toList subject_lower then "statement".toList
  else "other".toList

/-- Python `str.strip()` (ASCII whitespace). -/
def pyStrip (s : Str) : Str :=
  ((s.dropWhile isPySpace).reverse.dropWhile isPySpace).reverse

/-- The character class `[A-Za-z\s&]` of the counterparty patterns. -/
def isCpClass (c : Char) : Bool := c.isAlpha || isPySpace c || c = '&'

/-- The patterns `from\s+([A-Za-z\s&]+)` and `by\s+([A-Za-z\s&]+)` anchored at
the head of `s`.  When no class character follows the maximal whitespace run,
the regex engine backtracks `\s+` by one and the group captures that single
whitespace character (possible only when the run has length at least two). -/
def cpTokenGroupAt (tok : Str) (s : Str) : Option Str :=
  match dropTokenCI tok s with
  | none => none
  | some rest =>
    let ws := rest.takeWhile isPySpace
    if ws.isEmpty then none
    else
      let g := (rest.drop ws.length).takeWhile isCpClass
      if !g.isEmpty then some g
      else if 2 ≤ ws.length then
        match ws.getLast? with
        | some w => some [w]
        | none => none
      else none

/-- The pattern `@([A-Za-z0-9]+)` anchored at the head of `s`. -/
def atGroupAt (s : Str) : Option Str :=
  match s with
  | '@' :: rest =>
      let g := rest.takeWhile (fun c => c.isAlpha || c.isDigit)
      if g.isEmpty then none else some g
  | _ => none

/-- The pattern `([A-Z][a-z]+\s+[A-Z][a-z]+)` anchored at the head of `s`
(with `re.IGNORECASE` the classes degenerate to letters): two words of at
least two letters separated by whitespace. -/
def twoWordsAt (s : Str) : Option Str :=
  match s with
  | [] => none
  | c :: rest =>
    if c.isAlpha then
      let w1 := rest.takeWhile Char.isAlpha
      if w1.isEmpty then none else
      let afterw1 := rest.drop w1.length
      let ws := afterw1.takeWhile isPySpace
      if ws.isEmpty then none else
      match afterw1.drop ws.length with
      | d :: rest2 =>
        if d.isAlpha then
          let w2 := rest2.takeWhile Char.isAlpha
          if w2.isEmpty then none
          else some (c :: w1 ++ ws ++ d :: w2)
        else none
      | [] => none
    else none

/-- The class `[a-zA-Z0-9._%+-]` of the e-mail pattern. -/
def isLocalClass (c : Char) : Bool :=
  c.isAlpha || c.isDigit || c = '.' || c = '_' || c = '%' || c = '+' || c = '-'

/-- The class `[a-zA-Z0-9.-]` of the e-mail pattern. -/
def isDomainClass (c : Char) : Bool := c.isAlpha || c.isDigit || c = '.' || c = '-'

/-- Backtracking of `[a-zA-Z0-9.-]+\.[a-zA-Z]{2,}` over the maximal domain
run `d`: the engine gives back characters from the right, so the split is at
the rightmost dot of `d` followed by at least two letters. -/
def emailTLDSplitGo (d : Str) : ℕ → Option (Str × Str)
  | 0 => none
  | p + 1 =>
    match d.drop (p + 1) with
    | '.' :: rest =>
        let tld := rest.takeWhile Char.isAlpha
        if 2 ≤ tld.length then some (d.take (p + 1), tld) else emailTLDSplitGo d p
    | _ => emailTLDSplitGo d p

/-- The pattern `[a-zA-Z0-9._%+-]+@[a-zA-Z0-9.-]+\.[a-zA-Z]{2,}` anchored at
the head of `s`; returns the whole match (`group(0)`). -/
def emailMatchAt (s : Str) : Option Str :=
  match s with
  | [] => none
  | c :: _ =>
    if isLocalClass c then
      let loc := s.takeWhile isLocalClass
      match s.drop loc.length with
      | '@' :: rest =>
          let d := rest.takeWhile isDomainClass
          match emailTLDSplitGo d (d.length - 1) with
          | some (dom, tld) => some (loc ++ '@' :: dom ++ '.' :: tld)
          | none => none
      | _ => none
    else none

/-- `EmailProcessor._extract_counterparty`: the four company patterns over the
subject in order, then the e-mail pattern over the body, else `Unknown`. -/
def extract_counterparty (subject body : Str) : Str :=
  match reSearch (cpTokenGroupAt "from".toList) subject with
  | some g => pyStrip g
  | none =>
  match reSearch (cpTokenGroupAt "by".toList) subject with
  | some g => pyStrip g
  | none =>
  match reSearch atGroupAt subject with
  | some g => pyStrip g
  | none =>
  match reSearch twoWordsAt subject with
  | some g => pyStrip g
  | none =>
  match reSearch emailMatchAt body with
  | some m => m
  | none => "Unknown".toList

/-- A date pattern of the shape `tok[:\s]*([0-9]{1,2}/[0-9]{1,2}/[0-9]{4})`
anchored at the head of `s`.  `[0-9]{1,2}` followed by `/` matches exactly
when the maximal digit run has length one or two and is followed by `/`. -/
def dateNumGroupAt (tok : Str) (s : Str) : Option Str :=
  match dropTokenCI tok s with
  | none => none
  | some rest =>
    let sep := rest.takeWhile (fun c => c = ':' || isPySpace c)
    let r1 := rest.drop sep.length
    let d1 := r1.takeWhile Char.isDigit
    if d1.length = 0 || 2 < d1.length then none else
    match r1.drop d1.length with
    | '/' :: r2 =>
      let d2 := r2.takeWhile Char.isDigit
      if d2.length = 0 || 2 < d2.length then none else
      match r2.drop d2.length with
      | '/' :: r3 =>
        let d3 := r3.takeWhile Char.isDigit
        if 4 ≤ d3.length then some (d1 ++ '/' :: d2 ++ '/' :: d3.take 4) else none
      | _ => none
    | _ => none

/-- A date pattern of the shape
`tok[:\s]*([A-Za-z]+\s+[0-9]{1,2},?\s+[0-9]{4})` anchored at the head of `s`.
The optional comma is greedy and, when taken, commits (giving it back leaves
`\s+` facing the comma). -/
def dateTextGroupAt (tok : Str) (s : Str) : Option Str :=
  match dropTokenCI tok s with
  | none => none
  | some rest =>
    let sep := rest.takeWhile (fun c => c = ':' || isPySpace c)
    let r1 := rest.drop sep.length
    let w := r1.takeWhile Char.isAlpha
    if w.isEmpty then none else
    let r2 := r1.drop w.length
    let ws1 := r2.takeWhile isPySpace
    if ws1.isEmpty then none else
    let r3 := r2.drop ws1.length
    let d := r3.takeWhile Char.isDigit
    if d.length = 0 || 2 < d.length then none else
    match r3.drop d.length with
    | ',' :: r5 =>
        let ws2 := r5.takeWhile isPySpace
        if ws2.isEmpty then none else
        let y := (r5.drop ws2.length).takeWhile Char.isDigit
        if 4 ≤ y.length then some (w ++ ws1 ++ d ++ ',' :: ws2 ++ y.take 4) else none
    | r4 =>
        let ws2 := r4.takeWhile isPySpace
        if ws2.isEmpty then none else
        let y := (r4.drop ws2.length).takeWhile Char.isDigit
        if 4 ≤ y.length then some (w ++ ws1 ++ d ++ ws2 ++ y.take 4) else none

/-- The inner `for pattern in patterns: ... break` loop of
`_extract_dates`. -/
def firstSome (fs : List (Str → Option Str)) (b : Str) : Option Str :=
  match fs with
  | [] => none
  | f :: t =>
    match f b with
    | some g => some g
    | none => firstSome t b

/-- `EmailProcessor._extract_dates`: the resulting dictionary in insertion
order (a kind is absent when none of its two patterns matches). -/
def extract_dates (body : Str) : List (Str × Str) :=
  let dd := firstSome [reSearch (dateNumGroupAt "due date".toList),
                       reSearch (dateTextGroupAt "due".toList)] body
  let isd := firstSome [reSearch (dateNumGroupAt "date".toList),
                        reSearch (dateTextGroupAt "issued".toList)] body
  let std := firstSome [reSearch (dateNumGroupAt "start".toList),
                        reSearch (dateTextGroupAt "from".toList)] body
  (match dd with | some g => [("due_date".toList, g)] | none => []) ++
  (match isd with | some g => [("issue_date".toList, g)] | none => []) ++
  (match std with | some g => [("start_date".toList, g)] | none => [])

/-- The metadata dictionary stored under the `llm_analysis` key of an
extraction result. -/
structure LLMMeta where
  confidence : ℚ
  anomalies : List Str
  extracted_entities : List Str
  description : Str
  analysis_method : Str
deriving DecidableEq

/-- The extraction-result dictionary produced by `_extract_with_rules` and
`_format_llm_result` (its `type` key is called `doc_type` because `type` is
reserved in Lean); `dates` is the nested date dictionary in insertion
order. -/
structure FinancialInfo where
  doc_type : Str
  status : Str
  counterparty : Str
  amount : Option ℚ
  currency : Option Str
  usd_amount : Option ℚ
  exchange_rate : Option ℚ
  dates : List (Str × Option Str)
  subject : Str
  llm_analysis : LLMMeta
deriving DecidableEq

/-- The validated analysis dictionary returned by
`LLMEmailAnalyzer.analyze_email_with_llm` (shape of
`_validate_analysis_result` and of the two rule-based fallbacks; the
`raw_llm_response` passthrough field is not modelled). -/
structure LLMResult where
  document_type : Str
  status : Str
  counterparty : Str
  amount : Option ℚ
  currency : Option Str
  usd_amount : Option ℚ
  exchange_rate : Option ℚ
  issue_date : Option Str
  due_date : Option Str
  description : Str
  confidence : ℚ
  anomalies : List Str
  extracted_entities : List Str
  analysis_method : Str
deriving DecidableEq

/-- `EmailProcessor._format_llm_result`. -/
def format_llm_result (r : LLMResult) (subject : Str) : FinancialInfo :=
  { doc_type := r.document_type, status := r.status, counterparty := r.counterparty,
    amount := r.amount, currency := r.currency, usd_amount := r.usd_amount,
    exchange_rate := r.exchange_rate,
    dates := [("issue_date".toList, r.issue_date), ("due_date".toList, r.due_date)],
    subject := subject,
    llm_analysis := ⟨r.confidence, r.anomalies, r.extracted_entities,
                     r.description, r.analysis_method⟩ }

/-- Python truthiness of a float-or-`None` value: truthy when present and
nonzero. -/
def float_truthy (o : Option ℚ) : Bool :=
  match o with
  | some a => decide (a ≠ 0)
  | none => false

/-- `EmailProcessor._extract_with_rules`.  The exchange-service call
`convert_amount(amount, currency, 'USD')` is an oracle parameter `convert`
(it performs HTTP calls internally and never raises).  The guards mirror the
Python truthiness tests: a float is truthy when nonzero, a string when
nonempty, a dict when nonempty.  `Except.error` propagates the `ValueError`
of `_extract_amount_and_currency`. -/
def extract_with_rules (convert : ℚ → Str → Str → Option ℚ)
    (subject body : Str) : Except Unit (Option FinancialInfo) :=
  match extract_amount_and_currency body with
  | .error () => .error ()
  | .ok amtCur =>
    let usd_rate : Option ℚ × Option ℚ :=
      match amtCur with
      | some (amount, currency) =>
        if amount ≠ 0 ∧ currency ≠ [] ∧ pyUpper currency ≠ "USD".toList then
          match convert amount currency "USD".toList with
          | some usd =>
              if usd ≠ 0 then (some usd, some (usd / amount)) else (some usd, none)
          | none => (none, none)
        else if amount ≠ 0 ∧ currency ≠ [] ∧ pyUpper currency = "USD".toList then
          (some amount, some 1)
        else (none, none)
      | none => (none, none)
    let status := identify_status body
    let counterparty := extract_counterparty subject body
    let dates := extract_dates body
    if float_truthy (amtCur.map Prod.fst) ||
       !status.isEmpty || !counterparty.isEmpty || !dates.isEmpty then
      .ok (some
        { doc_type := identify_document_type subject,
          status := status,
          counterparty := counterparty,
          amount := amtCur.map Prod.fst,
          currency := amtCur.map Prod.snd,
          usd_amount :=
            (match usd_rate.1 with
             | some u => if u ≠ 0 then some u else none
             | none => none),
          exchange_rate := usd_rate.2,
          dates := dates.map (fun kv => (kv.1, some kv.2)),
          subject := subject,
          llm_analysis := ⟨Rat.divInt 3 10, [], [], [], "rule_based".toList⟩ })
    else .ok none

/-- The subject keyword gate of `_extract_financial_info`. -/
def financial_keywords : List Str :=
  ["invoice".toList, "order".toList, "statement".toList,
   "payment".toList, "bill".toList, "receipt".toList]

/-- `EmailProcessor._extract_financial_info`.  `analyze` is the outcome of
`_analyze_with_llm` (which wraps the LLM agent call, supplements the currency
conversion, and catches every exception, returning a zero-confidence result
in that case), taken as an oracle since its value is produced by the hosted
model. -/
def extract_financial_info (analyze : Str → Str → LLMResult)
    (convert : ℚ → Str → Str → Option ℚ) (subject body : Str) :
    Except Unit (Option FinancialInfo) :=
  if !(financial_keywords.any (fun k => strContains k (pyLower subject))) then
    .ok none
  else
    let llm_result := analyze subject body
    if Rat.divInt 7 10 < llm_result.confidence then
      .ok (some (format_llm_result llm_result subject))
    else extract_with_rules convert subject body

/-! ## LLM analyzer (`llm_email_analyzer.py`)

`LLMEmailAnalyzer.analyze_email_with_llm` wraps the hosted-model call in a
`try` block; the whole block (agent invocation, reply parsing, validation) is
modelled as the oracle `attempt`, whose `.error ()` value stands for any
exception raised inside it.  The `except` handler calls
`_fallback_rule_based_analysis`, whose local `import EmailProcessor` may fail
with `ImportError` (modelled by the flag `importOk`); only `ImportError` is
caught there, so an exception raised by the rule helpers themselves (the
`ValueError` of `_extract_amount_and_currency`) escapes the function. -/

/-- `LLMEmailAnalyzer._simple_rule_based_analysis`: the minimal inline
heuristic used when `EmailProcessor` cannot be imported. -/
def simple_rule_based_analysis (subject body : Str) : Except Unit LLMResult :=
  let subject_lower := pyLower subject
  let doc_type :=
    if strContains "invoice".toList subject_lower then "invoice".toList
    else if strContains "order".toList subject_lower then "order".toList
    else if strContains "statement".toList subject_lower then "statement".toList
    else "other".toList
  match searchAmount "$".toList body with
  | none =>
      .ok { document_type := doc_type, status := "其他".toList,
            counterparty := "Unknown".toList,
            amount := none, currency := none, usd_amount := none,
            exchange_rate := none, issue_date := none, due_date := none,
            description := doc_type, confidence := Rat.divInt 2 10,
            anomalies := [], extracted_entities := [],
            analysis_method := "simple_rule_based".toList }
  | some grp =>
      match parseAmount (grp.filter (fun c => c ≠ ',')) with
      | none => .error ()
      | some a =>
          .ok { document_type := doc_type, status := "其他".toList,
                counterparty := "Unknown".toList,
                amount := some a,
                currency := if a ≠ 0 then some "USD".toList else none,
                usd_amount := some a,
                exchange_rate := if a ≠ 0 then some 1 else none,
                issue_date := none, due_date := none,
                description := doc_type, confidence := Rat.divInt 2 10,
                anomalies := [], extracted_entities := [],
                analysis_method := "simple_rule_based".toList }

/-- `LLMEmailAnalyzer._fallback_rule_based_analysis`: full rule-based
extraction when the `EmailProcessor` import succeeds, else the simple
heuristic.  `Except.error` is the uncaught `ValueError` of the amount
scan. -/
def fallback_rule_based_analysis (importOk : Bool) (subject body : Str) :
    Except Unit LLMResult :=
  if importOk then
    match extract_amount_and_currency body with
    | .error () => .error ()
    | .ok amtCur =>
        let doc_type := identify_document_type subject
        let counterparty := extract_counterparty subject body
        .ok { document_type := doc_type, status := identify_status body,
              counterparty := counterparty,
              amount := amtCur.map Prod.fst, currency := amtCur.map Prod.snd,
              usd_amount := none, exchange_rate := none,
              issue_date := none, due_date := none,
              description := doc_type ++ " from ".toList ++ counterparty,
              confidence := Rat.divInt 3 10,
              anomalies := [], extracted_entities := [],
              analysis_method := "rule_based".toList }
  else simple_rule_based_analysis subject body

/-- `LLMEmailAnalyzer.analyze_email_with_llm`: return the try-block result,
or on any exception the rule-based fallback. -/
def analyze_email_with_llm (attempt : Except Unit LLMResult) (importOk : Bool)
    (subject body : Str) : Except Unit LLMResult :=
  match attempt with
  | .ok r => .ok r
  | .error () => fallback_rule_based_analysis importOk subject body

/-! ## Session state and the confirmation workflow
(`session_manager.py`, `customer_support.py`, `email_processor.py`)

`SessionManager.get_session` resolves a session id to its state (creating it
on first use) and refreshes a last-activity timestamp; the operations below
act on that resolved `SessionState`.  The timestamp, the human-readable
message strings and the free-text modification reasons are not modelled. -/

/-- A Python value held in a financial-info field. -/
inductive PyVal where
  | null
  | num (q : ℚ)
  | str (s : Str)
deriving DecidableEq

/-- One entry of `session.processed_emails`: the Gmail message id and the
nested `financial_info` dictionary (the claims touch no other key of the
e-mail dictionary; subject/from/date/body_preview ride along unmodelled). -/
structure Email where
  id : Str
  financial_info : List (Str × PyVal)
deriving DecidableEq

/-- One `modification_history` entry (timestamp and reason text omitted). -/
structure ModificationEntry where
  email_id : Str
  field : Str
  old_value : PyVal
  new_value : PyVal
deriving DecidableEq

/-- `SessionState` of `session_manager.py` (`last_update` omitted). -/
structure SessionState where
  current_state : Str
  current_email_account : Option Str
  processed_emails : List Email
  modified_data : List (Str × List (Str × PyVal))
  confirmation_status : List (Str × Bool)
  modification_history : List ModificationEntry
deriving DecidableEq

/-- `SessionManager.set_confirmation`. -/
def set_confirmation (st : SessionState) (email_id : Str) (confirmed : Bool) :
    SessionState :=
  { st with confirmation_status := aupsert email_id confirmed st.confirmation_status }

/-- `SessionManager.add_modification`: stores the new value under
`modified_data[email_id][field]` and appends one history entry. -/
def add_modification (st : SessionState) (email_id field : Str)
    (old_value new_value : PyVal) : SessionState :=
  let inner := (alookup email_id st.modified_data).getD []
  { st with
    modified_data := aupsert email_id (aupsert field new_value inner) st.modified_data,
    modification_history :=
      st.modification_history ++ [⟨email_id, field, old_value, new_value⟩] }

/-- The result dictionary of the `confirm_email_data` tool (its
`session_state` summary payload is not modelled). -/
structure ConfirmResult where
  status : Str
  email_id : Str
  confirmed : Bool
  modifications_applied : Bool
deriving DecidableEq

/-- The `confirm_email_data` tool of `customer_support.py`: always records the
confirmation flag, then, when a non-empty modifications dictionary is given,
walks the processed e-mails with a matching id and records one modification
per field that exists on that record's `financial_info` (reading the old
value from it, never writing to it). -/
def confirm_email_data (st : SessionState) (email_id : Str) (confirmed : Bool)
    (modifications : Option (List (Str × PyVal))) : ConfirmResult × SessionState :=
  let st1 := set_confirmation st email_id confirmed
  let st2 :=
    match modifications with
    | none => st1
    | some mods =>
      st1.processed_emails.foldl (fun acc email =>
        if email.id = email_id then
          mods.foldl (fun acc2 fv =>
            match alookup fv.1 email.financial_info with
            | some old_value => add_modification acc2 email_id fv.1 old_value fv.2
            | none => acc2) acc
        else acc) st1
  (⟨"success".toList, email_id, confirmed, modifications.isSome⟩, st2)

/-- `session.confirmation_status.get(email_id, False)`. -/
def is_confirmed (st : SessionState) (email_id : Str) : Bool :=
  (alookup email_id st.confirmation_status).getD false

/-- The modification overlay inside `save_confirmed_data`: for each recorded
field, overwrite it when it exists on the financial-info dictionary. -/
def overlay_fields (mods : List (Str × PyVal)) (fi : List (Str × PyVal)) :
    List (Str × PyVal) :=
  mods.foldl (fun acc fv =>
    match alookup fv.1 acc with
    | some _ => aupsert fv.1 fv.2 acc
    | none => acc) fi

/-- Overlay of `session.modified_data[email.id]` (when present) onto one
e-mail, as performed in place by `save_confirmed_data`. -/
def apply_modifications (st : SessionState) (email : Email) : Email :=
  match alookup email.id st.modified_data with
  | some mods => { email with financial_info := overlay_fields mods email.financial_info }
  | none => email

/-- The two result shapes of `EmailProcessor.save_confirmed_data`
(message strings omitted). -/
inductive SaveResult where
  | success (saved_count total_confirmed : ℕ)
  | no_data
deriving DecidableEq

/-- `EmailProcessor.save_to_database`: fold the row insert over the batch,
counting successes; the database client is the oracle `db`. -/
def save_to_database (db : Email → Bool) (data : List Email) : ℕ :=
  data.foldl (fun acc e => if db e then acc + 1 else acc) 0

/-- `EmailProcessor.save_confirmed_data`.  Returns (result, the records
forwarded to the persistence gateway, the session state afterwards): each
confirmed record gets its modifications overlaid in place and is collected;
with no confirmed record the gateway is not called and `no_data` is
returned. -/
def save_confirmed_data (db : Email → Bool) (st : SessionState) :
    SaveResult × List Email × SessionState :=
  let new_emails := st.processed_emails.map (fun e =>
    if is_confirmed st e.id then apply_modifications st e else e)
  let confirmed_emails := new_emails.filter (fun e => is_confirmed st e.id)
  let st1 := { st with processed_emails := new_emails }
  if confirmed_emails.isEmpty then (.no_data, [], st1)
  else (.success (save_to_database db confirmed_emails) confirmed_emails.length,
        confirmed_emails, st1)

/-- The statistics block added by `confirm_and_save_session` on success. -/
structure SessionSummary where
  total_emails : ℕ
  confirmed_count : ℕ
  modified_count : ℕ
  modification_history_count : ℕ
deriving DecidableEq

/-- The outcomes of `confirm_and_save_session`. -/
inductive SessionSaveOutcome where
  | error_no_data
  | saved (result : SaveResult) (summary : Option SessionSummary)
deriving DecidableEq

/-- `confirm_and_save_session` of `email_processor.py`: error when the
session holds no processed e-mails; otherwise run `save_confirmed_data`, and
only on success mark the session completed and attach the statistics. -/
def confirm_and_save_session (db : Email → Bool) (st : SessionState) :
    SessionSaveOutcome × SessionState :=
  if st.processed_emails.isEmpty then (.error_no_data, st)
  else
    match save_confirmed_data db st with
    | (SaveResult.success sc tc, _, st1) =>
        let st2 := { st1 with current_state := "completed".toList }
        (.saved (.success sc tc)
           (some ⟨st2.processed_emails.length,
                  (st2.confirmation_status.filter (fun p => p.2)).length,
                  st2.modified_data.length,
                  st2.modification_history.length⟩), st2)
    | (SaveResult.no_data, _, st1) => (.saved .no_data none, st1)

instance instDecEqExcept {ε α : Type} [DecidableEq ε] [DecidableEq α] :
    DecidableEq (Except ε α) := fun x y =>
  match x, y with
  | .ok a, .ok b => if h : a = b then .isTrue (by rw [h]) else .isFalse (by simp [h])
  | .error a, .error b => if h : a = b then .isTrue (by rw [h]) else .isFalse (by simp [h])
  | .ok _, .error _ => .isFalse (by simp)
  | .error _, .ok _ => .isFalse (by simp)

/-! ## Concrete fixtures used by witnesses and counterexamples -/

/-- A candidate record with an extracted amount of 100. -/
def emailA : Email := ⟨"a1".toList, [("amount".toList, PyVal.num 100)]⟩

/-- A second candidate record with an extracted amount of 7. -/
def emailB : Email := ⟨"b2".toList, [("amount".toList, PyVal.num 7)]⟩

/-- A review session holding `emailA` and `emailB`, with only `emailA`
confirmed and a recorded modification `amount := 500` for it. -/
def sessionAB : SessionState :=
  ⟨"review".toList, none, [emailA, emailB],
   [("a1".toList, [("amount".toList, PyVal.num 500)])],
   [("a1".toList, true)], []⟩

/-- The rule-based fallback analysis of subject `Invoice`, body `$ 5.00`. -/
def fallbackExample : LLMResult :=
  ⟨"invoice".toList, "其他".toList, "Unknown".toList, some (Rat.divInt 500 100),
   some "USD".toList, none, none, none, none, "invoice from Unknown".toList,
   Rat.divInt 3 10, [], [], "rule_based".toList⟩

/-- The record `_extract_with_rules` builds for subject `invoice` and an
empty body: nothing was extracted from the message, every populated field is
a hard-coded default. -/
def defaultsRecord : FinancialInfo :=
  ⟨"invoice".toList, "其他".toList, "Unknown".toList, none, none, none, none,
   [], "invoice".toList, ⟨Rat.divInt 3 10, [], [], [], "rule_based".toList⟩⟩

/-! ## Supporting lemmas -/

theorem alookup_mem {α : Type} (k : Str) (v : α) :
    ∀ l : List (Str × α), alookup k l = some v → (k, v) ∈ l := by
  intro l
  induction l with
  | nil => intro h; simp [alookup] at h
  | cons p t ih =>
    intro h
    by_cases hk : k = p.1
    · simp [alookup, hk] at h
      have : (k, v) = p := by
        rw [hk, ← h]
      rw [this]
      exact List.mem_cons_self p t
    · simp only [alookup] at h
      rw [if_neg ?_] at h
      · right; exact ih h
      · exact fun hc => hk (by rw [hc])

theorem foldl_processed_eq {α : Type} (g : SessionState → α → SessionState)
    (hg : ∀ s a, (g s a).processed_emails = s.processed_emails) :
    ∀ (l : List α) (s : SessionState),
      (l.foldl g s).processed_emails = s.processed_emails := by
  intro l
  induction l with
  | nil => intro s; rfl
  | cons x t ih => intro s; rw [List.foldl_cons, ih, hg]

theorem foldl_fixed {α β : Type} (g : β → α → β) :
    ∀ (l : List α) (s : β), (∀ s1 x, x ∈ l → g s1 x = s1) → l.foldl g s = s := by
  intro l
  induction l with
  | nil => intro s _; rfl
  | cons x t ih =>
    intro s hg
    rw [List.foldl_cons, hg s x (List.mem_cons_self _ _)]
    exact ih s (fun s1 y hy => hg s1 y (List.mem_cons_of_mem _ hy))

theorem apply_modifications_id (st : SessionState) (e : Email) :
    (apply_modifications st e).id = e.id := by
  unfold apply_modifications
  cases h : alookup e.id st.modified_data with
  | none => rfl
  | some mods => rfl

theorem save_filter_map (st : SessionState) :
    ∀ l : List Email,
      (l.map (fun e =>
        if is_confirmed st e.id then apply_modifications st e else e)).filter
          (fun e => is_confirmed st e.id) =
        (l.filter (fun e => is_confirmed st e.id)).map (apply_modifications st) := by
  intro l
  induction l with
  | nil => rfl
  | cons x t ih =>
    by_cases hx : is_confirmed st x.id = true
    · simp only [List.map_cons, List.filter_cons, hx, if_true, apply_modifications_id, ih]
    · have hx0 : is_confirmed st x.id = false := Bool.eq_false_iff.mpr hx
      simp only [List.map_cons, List.filter_cons, hx0, Bool.false_eq_true, if_false, ih]

theorem alookup_aupsert {α : Type} (k : Str) (v : α) :
    ∀ l : List (Str × α), alookup k (aupsert k v l) = some v := by
  intro l
  induction l with
  | nil => simp [aupsert, alookup]
  | cons p t ih =>
    by_cases hk : p.1 = k
    · simp [aupsert, hk, alookup]
    · have hk2 : ¬k = p.1 := fun hc => hk hc.symm
      simp [aupsert, hk, alookup, hk2, ih]

theorem identify_status_ne_nil (body : Str) : identify_status body ≠ [] := by
  simp only [identify_status]
  split
  · decide
  · split
    · decide
    · split
      · decide
      · decide

theorem identify_status_truthy (body : Str) :
    (!(identify_status body).isEmpty) = true := by
  cases hs : identify_status body with
  | nil => exact absurd hs (identify_status_ne_nil body)
  | cons c t => rfl

theorem fallback_rates_pos : ∀ p ∈ fallback_rates, 0 < p.2 := by decide

theorem alookup_fallback_pos (s : Str) (r : ℚ)
    (h : alookup s fallback_rates = some r) : 0 < r :=
  fallback_rates_pos (s, r) (alookup_mem s r fallback_rates h)

/-! ## The claims -/

/-- Claim C4: when the two currency codes agree up to letter case, the rate is
exactly 1, for every cache state, clock value and behaviour of the two live
sources, and the service state is left untouched (neither the cache, the live
sources, nor the static table is consulted). -/
theorem C4_same_currency_rate_one (live1 live2 : Str → Str → Option ℚ)
    (st : ExchangeState) (now : ℕ) (from_currency to_currency : Str)
    (h : pyUpper from_currency = pyUpper to_currency) :
    get_exchange_rate live1 live2 st now from_currency to_currency = (some 1, st) := by
  simp [get_exchange_rate, h]

/-- Claim C5: for two distinct non-USD currencies that both appear in the
static fallback table, with both live sources failing and no cached entry for
the pair, the returned rate is the USD triangulation
`staticRate(A, USD) / staticRate(B, USD)` over the static table. -/
theorem C5_static_table_triangulation (live1 live2 : Str → Str → Option ℚ)
    (st : ExchangeState) (now : ℕ) (a b : Str) (ra rb : ℚ)
    (hne : pyUpper a ≠ pyUpper b)
    (hb : pyUpper b ≠ "USD".toList)
    (hra : alookup (pyUpper a) fallback_rates = some ra)
    (hrb : alookup (pyUpper b) fallback_rates = some rb)
    (hcache : alookup (a ++ '_' :: b) st.cache = none)
    (hl1 : live1 a b = none) (hl2 : live2 a b = none) :
    (get_exchange_rate live1 live2 st now a b).1 = some (ra / rb) := by
  have hcv : is_cache_valid st now (a ++ '_' :: b) = false := by
    unfold is_cache_valid
    rw [hcache]
  have hra0 : ra ≠ 0 := ne_of_gt (alookup_fallback_pos _ _ hra)
  have hrb0 : rb ≠ 0 := ne_of_gt (alookup_fallback_pos _ _ hrb)
  unfold get_exchange_rate
  rw [if_neg hne]
  simp only [hcv, Bool.false_eq_true, if_false, hl1, hl2]
  unfold try_fallback_rates
  rw [if_neg hb, hra, hrb]
  simp [hra0, hrb0]

/-- Witness for C5 at `(EUR, GBP)` with an empty cache and dead live sources:
the rate is `1.10 / 1.27` over the static table. -/
theorem C5_static_table_triangulation_witness :
    alookup (pyUpper "EUR".toList) fallback_rates = some (Rat.divInt 110 100) ∧
    alookup (pyUpper "GBP".toList) fallback_rates = some (Rat.divInt 127 100) ∧
    (get_exchange_rate (fun _ _ => none) (fun _ _ => none) ⟨[], []⟩ 0
        "EUR".toList "GBP".toList).1 =
      some (Rat.divInt 110 100 / Rat.divInt 127 100) :=
  ⟨by decide, by decide,
   C5_static_table_triangulation (fun _ _ => none) (fun _ _ => none) ⟨[], []⟩ 0
     "EUR".toList "GBP".toList (Rat.divInt 110 100) (Rat.divInt 127 100)
     (by decide) (by decide) (by decide) (by decide) (by decide) rfl rfl⟩

/-- Witness for C4 at `("usd", "USD")`, with live sources that would answer and
a cache that already holds a different, unexpired rate for the pair. -/
theorem C4_same_currency_rate_one_witness :
    pyUpper "usd".toList = pyUpper "USD".toList ∧
    get_exchange_rate (fun _ _ => some 5) (fun _ _ => some 7)
      ⟨[("usd_USD".toList, 9)], [("usd_USD".toList, 50)]⟩ 0
      "usd".toList "USD".toList =
      (some 1, ⟨[("usd_USD".toList, 9)], [("usd_USD".toList, 50)]⟩) :=
  ⟨by decide,
   C4_same_currency_rate_one (fun _ _ => some 5) (fun _ _ => some 7)
     ⟨[("usd_USD".toList, 9)], [("usd_USD".toList, 50)]⟩ 0
     "usd".toList "USD".toList (by decide)⟩

/-- Claim C6: a subject containing none of the six financial keywords
(case-insensitively) makes the extraction entry point return `None`, for
every body and every behaviour of the LLM analyzer and of the currency
converter — body content alone never makes a message financial. -/
theorem C6_subject_keyword_gate (analyze : Str → Str → LLMResult)
    (convert : ℚ → Str → Str → Option ℚ) (subject body : Str)
    (h : financial_keywords.any (fun k => strContains k (pyLower subject)) = false) :
    extract_financial_info analyze convert subject body = .ok none := by
  simp [extract_financial_info, h]

/-- Witness for C6: subject with no financial keyword, body full of financial
content, an LLM oracle answering with full confidence. -/
theorem C6_subject_keyword_gate_witness :
    financial_keywords.any (fun k => strContains k (pyLower "Hello there".toList)) = false ∧
    extract_financial_info
      (fun _ _ => ⟨[], [], [], none, none, none, none, none, none, [], 1, [], [], []⟩)
      (fun _ _ _ => none)
      "Hello there".toList "payment due $ 100, invoice".toList = .ok none :=
  ⟨by decide,
   C6_subject_keyword_gate
     (fun _ _ => ⟨[], [], [], none, none, none, none, none, none, [], 1, [], [], []⟩)
     (fun _ _ _ => none)
     "Hello there".toList "payment due $ 100, invoice".toList (by decide)⟩

/-- Claim C1: recording a confirmation or field modification
(`confirm_email_data`) never mutates the stored candidate records — the
session's `processed_emails` list, and hence every record's extracted
`financial_info`, is exactly as before — while a save forwards to the
persistence layer precisely the confirmed records with the session's
recorded modifications overlaid at that moment (the overlay happens inside
the save operation, immediately before the persistence calls). -/
theorem C1_overlay_only_at_save :
    (∀ (st : SessionState) (email_id : Str) (confirmed : Bool)
        (mods : Option (List (Str × PyVal))),
      ((confirm_email_data st email_id confirmed mods).2).processed_emails =
        st.processed_emails) ∧
    (∀ (db : Email → Bool) (st : SessionState),
      (save_confirmed_data db st).2.1 =
        (st.processed_emails.filter (fun e => is_confirmed st e.id)).map
          (apply_modifications st)) := by
  constructor
  · intro st email_id confirmed mods
    cases mods with
    | none => rfl
    | some m =>
      show ((set_confirmation st email_id confirmed).processed_emails.foldl _
              (set_confirmation st email_id confirmed)).processed_emails =
           st.processed_emails
      rw [foldl_processed_eq]
      · rfl
      · intro s a
        by_cases ha : a.id = email_id
        · simp only [if_pos ha]
          rw [foldl_processed_eq]
          intro s2 fv
          cases hf : alookup fv.1 a.financial_info with
          | none => rfl
          | some old => rfl
        · simp only [if_neg ha]
  · intro db st
    have hcomm := save_filter_map st st.processed_emails
    simp only [save_confirmed_data]
    split
    next hempty =>
      rw [← hcomm]
      exact (List.isEmpty_iff.mp hempty).symm
    next hempty => exact hcomm

/-- Claim C2: when no record id in the session has a true confirmation flag,
a save request returns the no-data result, forwards nothing to the
persistence gateway (the database insert is never invoked), and leaves the
session state unchanged; through `confirm_and_save_session` (on a session
that holds processed e-mails) the same no-data result is returned, again with
the session untouched. -/
theorem C2_save_without_confirmation_no_data (db : Email → Bool)
    (st : SessionState)
    (h : ∀ p ∈ st.confirmation_status, p.2 = false) :
    save_confirmed_data db st = (.no_data, [], st) ∧
    (st.processed_emails ≠ [] →
      confirm_and_save_session db st = (.saved .no_data none, st)) := by
  have hic : ∀ eid, is_confirmed st eid = false := by
    intro eid
    unfold is_confirmed
    cases hq : alookup eid st.confirmation_status with
    | none => rfl
    | some b =>
      have hb := h _ (alookup_mem _ _ _ hq)
      simp only at hb
      simp [hb]
  have hmap : ∀ l : List Email,
      l.map (fun e => if is_confirmed st e.id then apply_modifications st e else e) = l := by
    intro l
    induction l with
    | nil => rfl
    | cons x t ih => simp [hic, ih]
  have hfil : ∀ l : List Email, l.filter (fun e => is_confirmed st e.id) = [] := by
    intro l
    induction l with
    | nil => rfl
    | cons x t ih => simp [List.filter_cons, hic, ih]
  have h1 : save_confirmed_data db st = (.no_data, [], st) := by
    simp only [save_confirmed_data, hmap, hfil]
    rfl
  refine ⟨h1, fun hne => ?_⟩
  cases hpe : st.processed_emails with
  | nil => exact absurd hpe hne
  | cons a t =>
    simp only [confirm_and_save_session, hpe, List.isEmpty_cons, Bool.false_eq_true,
               if_false, h1]

/-- Claim C3: in a session holding exactly the candidate records A and B with
only A confirmed, a save (with a database insert that succeeds on A) reports
`saved_count = 1` out of one confirmed record, forwards only A (with its
modifications overlaid) to the persistence gateway — no forwarded record has
B's id — and afterwards B is still unconfirmed. -/
theorem C3_only_confirmed_record_saved (db : Email → Bool) (st : SessionState)
    (A B : Email)
    (hemails : st.processed_emails = [A, B])
    (hA : is_confirmed st A.id = true)
    (hB : is_confirmed st B.id = false)
    (hdb : db (apply_modifications st A) = true) :
    save_confirmed_data db st =
      (.success 1 1, [apply_modifications st A],
       { st with processed_emails := [apply_modifications st A, B] }) ∧
    (∀ e ∈ (save_confirmed_data db st).2.1, e.id ≠ B.id) ∧
    is_confirmed (save_confirmed_data db st).2.2 B.id = false := by
  have hAB : A.id ≠ B.id := by
    intro hid
    rw [hid] at hA
    rw [hA] at hB
    exact Bool.noConfusion hB
  have happ : is_confirmed st (apply_modifications st A).id = true := by
    rw [apply_modifications_id]
    exact hA
  have hsave : save_confirmed_data db st =
      (.success 1 1, [apply_modifications st A],
       { st with processed_emails := [apply_modifications st A, B] }) := by
    simp only [save_confirmed_data, hemails, List.map_cons, List.map_nil, hA, hB,
               Bool.false_eq_true, if_true, if_false, List.filter_cons, happ,
               List.filter_nil, List.isEmpty_cons, save_to_database, List.foldl_cons,
               List.foldl_nil, hdb, List.length_cons, List.length_nil]
  refine ⟨hsave, ?_, ?_⟩
  · rw [hsave]
    intro e he
    have he2 : e = apply_modifications st A := by
      simpa using he
    rw [he2, apply_modifications_id]
    exact hAB
  · rw [hsave]
    exact hB

/-- Witness for C2: a session with one processed e-mail whose confirmation
flag was explicitly set to false. -/
theorem C2_save_without_confirmation_no_data_witness :
    (∀ p ∈ ([("m1".toList, false)] : List (Str × Bool)), p.2 = false) ∧
    save_confirmed_data (fun _ => true)
      ⟨"review".toList, none, [⟨"m1".toList, [("amount".toList, PyVal.num 100)]⟩],
       [], [("m1".toList, false)], []⟩ =
      (.no_data, [],
       ⟨"review".toList, none, [⟨"m1".toList, [("amount".toList, PyVal.num 100)]⟩],
        [], [("m1".toList, false)], []⟩) ∧
    confirm_and_save_session (fun _ => true)
      ⟨"review".toList, none, [⟨"m1".toList, [("amount".toList, PyVal.num 100)]⟩],
       [], [("m1".toList, false)], []⟩ =
      (.saved .no_data none,
       ⟨"review".toList, none, [⟨"m1".toList, [("amount".toList, PyVal.num 100)]⟩],
        [], [("m1".toList, false)], []⟩) :=
  ⟨by decide,
   (C2_save_without_confirmation_no_data (fun _ => true)
     ⟨"review".toList, none, [⟨"m1".toList, [("amount".toList, PyVal.num 100)]⟩],
      [], [("m1".toList, false)], []⟩ (by decide)).1,
   (C2_save_without_confirmation_no_data (fun _ => true)
     ⟨"review".toList, none, [⟨"m1".toList, [("amount".toList, PyVal.num 100)]⟩],
      [], [("m1".toList, false)], []⟩ (by decide)).2 (by decide)⟩

/-- Witness for C3 on `sessionAB`: only A confirmed; the save succeeds with
`saved_count = 1`, forwards only A with the recorded `amount := 500` overlay
applied, and leaves B unconfirmed. -/
theorem C3_only_confirmed_record_saved_witness :
    sessionAB.processed_emails = [emailA, emailB] ∧
    is_confirmed sessionAB emailA.id = true ∧
    is_confirmed sessionAB emailB.id = false ∧
    alookup "amount".toList
      (apply_modifications sessionAB emailA).financial_info = some (PyVal.num 500) ∧
    (save_confirmed_data (fun _ => true) sessionAB =
      (.success 1 1, [apply_modifications sessionAB emailA],
       { sessionAB with
         processed_emails := [apply_modifications sessionAB emailA, emailB] }) ∧
     (∀ e ∈ (save_confirmed_data (fun _ => true) sessionAB).2.1, e.id ≠ emailB.id) ∧
     is_confirmed (save_confirmed_data (fun _ => true) sessionAB).2.2
       emailB.id = false) :=
  ⟨by decide, by decide, by decide, by decide,
   C3_only_confirmed_record_saved (fun _ => true) sessionAB emailA emailB
     (by decide) (by decide) (by decide) rfl⟩

/-- Counterexample to C9: confirming the unknown record id `zz` on a session
whose candidate records are `a1` and `b2` succeeds (status `success`, not an
error) and records the confirmation flag under the unknown id. -/
theorem C9_counterexample :
    sessionAB.processed_emails.all (fun e => e.id != "zz".toList) = true ∧
    (confirm_email_data sessionAB "zz".toList true none).1.status =
      "success".toList ∧
    alookup "zz".toList
      ((confirm_email_data sessionAB "zz".toList true none).2).confirmation_status =
      some true := by decide

/-- Claim C9 as amended: a confirmation request whose record id matches no
candidate record in the session is accepted, not rejected — the result is the
usual success payload, the confirmation flag is recorded under the unknown
id, and no modification entry is recorded (the modification walk finds no
matching record, so `modified_data` and `modification_history` are those of
`set_confirmation` alone, which leaves them unchanged). -/
theorem C9_unknown_record_id_accepted (st : SessionState) (email_id : Str)
    (confirmed : Bool) (mods : Option (List (Str × PyVal)))
    (h : ∀ e ∈ st.processed_emails, e.id ≠ email_id) :
    confirm_email_data st email_id confirmed mods =
      (⟨"success".toList, email_id, confirmed, mods.isSome⟩,
       set_confirmation st email_id confirmed) ∧
    alookup email_id
      ((confirm_email_data st email_id confirmed mods).2).confirmation_status =
      some confirmed := by
  have hmain : confirm_email_data st email_id confirmed mods =
      (⟨"success".toList, email_id, confirmed, mods.isSome⟩,
       set_confirmation st email_id confirmed) := by
    cases mods with
    | none => rfl
    | some m =>
      simp only [confirm_email_data, Option.isSome_some]
      congr 1
      apply foldl_fixed
      intro s1 x hx
      have hxid : x.id ≠ email_id := h x hx
      simp [hxid]
  refine ⟨hmain, ?_⟩
  rw [hmain]
  exact alookup_aupsert email_id confirmed st.confirmation_status

/-- Witness for the amended C9 on `sessionAB` with the unknown id `zz`. -/
theorem C9_unknown_record_id_accepted_witness :
    (∀ e ∈ sessionAB.processed_emails, e.id ≠ "zz".toList) ∧
    (confirm_email_data sessionAB "zz".toList true
        (some [("amount".toList, PyVal.num 9)]) =
      (⟨"success".toList, "zz".toList, true, true⟩,
       set_confirmation sessionAB "zz".toList true) ∧
     alookup "zz".toList
       ((confirm_email_data sessionAB "zz".toList true
           (some [("amount".toList, PyVal.num 9)])).2).confirmation_status =
       some true) :=
  ⟨by decide,
   C9_unknown_record_id_accepted sessionAB "zz".toList true
     (some [("amount".toList, PyVal.num 9)]) (by decide)⟩

/-- Counterexample to C8: with the LLM invocation raising and the body
`amount: ,`, the matched amount group is a bare comma, `float('')` raises
`ValueError` inside the rule-based fallback (only `ImportError` is caught
there), and `analyze_email_with_llm` propagates an exception instead of
returning a fallback result. -/
theorem C8_counterexample :
    analyze_email_with_llm (.error ()) true "Invoice".toList "amount: ,".toList =
      .error () := by decide

/-- Claim C8 as amended: when the LLM invocation (or parsing/validation of
its reply) raises and the rule-based fallback itself completes without
raising, `analyze_email_with_llm` returns that fallback result, whose
confidence is 0.3 with the full rule-based extractor available
(`analysis_method = rule_based`) and 0.2 for the minimal inline heuristic
(`analysis_method = simple_rule_based`) — in both cases at most 0.3. -/
theorem C8_llm_exception_falls_back (importOk : Bool) (subject body : Str)
    (r : LLMResult)
    (h : fallback_rule_based_analysis importOk subject body = .ok r) :
    analyze_email_with_llm (.error ()) importOk subject body = .ok r ∧
    r.confidence = (if importOk then Rat.divInt 3 10 else Rat.divInt 2 10) ∧
    r.analysis_method =
      (if importOk then "rule_based".toList else "simple_rule_based".toList) ∧
    r.confidence ≤ Rat.divInt 3 10 := by
  refine ⟨h, ?_⟩
  cases importOk with
  | true =>
    cases heq : extract_amount_and_currency body with
    | error e =>
      cases e
      simp only [fallback_rule_based_analysis, if_true, heq] at h
      exact Except.noConfusion h
    | ok amtCur =>
      simp only [fallback_rule_based_analysis, if_true, heq] at h
      cases h
      exact ⟨rfl, rfl, (by decide : Rat.divInt 3 10 ≤ Rat.divInt 3 10)⟩
  | false =>
    simp only [fallback_rule_based_analysis, Bool.false_eq_true, if_false] at h
    cases hs : searchAmount "$".toList body with
    | none =>
      simp only [simple_rule_based_analysis, hs] at h
      cases h
      exact ⟨rfl, rfl, (by decide : Rat.divInt 2 10 ≤ Rat.divInt 3 10)⟩
    | some grp =>
      cases hp : parseAmount (grp.filter (fun c => c ≠ ',')) with
      | none =>
        simp only [simple_rule_based_analysis, hs, hp] at h
        exact Except.noConfusion h
      | some a =>
        simp only [simple_rule_based_analysis, hs, hp] at h
        cases h
        exact ⟨rfl, rfl, (by decide : Rat.divInt 2 10 ≤ Rat.divInt 3 10)⟩

/-- Witness for the amended C8: LLM raises on subject `Invoice`, body
`$ 5.00`; the full rule-based fallback is returned with confidence 0.3. -/
theorem C8_llm_exception_falls_back_witness :
    fallback_rule_based_analysis true "Invoice".toList "$ 5.00".toList =
      .ok fallbackExample ∧
    (analyze_email_with_llm (.error ()) true "Invoice".toList "$ 5.00".toList =
        .ok fallbackExample ∧
     fallbackExample.confidence =
       (if true then Rat.divInt 3 10 else Rat.divInt 2 10) ∧
     fallbackExample.analysis_method =
       (if true then "rule_based".toList else "simple_rule_based".toList) ∧
     fallbackExample.confidence ≤ Rat.divInt 3 10) :=
  ⟨by decide,
   C8_llm_exception_falls_back true "Invoice".toList "$ 5.00".toList
     fallbackExample (by decide)⟩

/-- Counterexample to C10: in the body `amount: ,` the first matching amount
pattern is the labeled `amount:` one (none of the six symbol/ISO-code
patterns matches, and the body holds no currency symbol or code), yet the
extractor does not return the default currency USD — the group is a bare
comma, so `float('')` raises `ValueError`. -/
theorem C10_counterexample :
    searchAmount "$".toList "amount: ,".toList = none ∧
    searchAmount "USD".toList "amount: ,".toList = none ∧
    searchAmount "€".toList "amount: ,".toList = none ∧
    searchAmount "EUR".toList "amount: ,".toList = none ∧
    searchAmount "¥".toList "amount: ,".toList = none ∧
    searchAmount "CNY".toList "amount: ,".toList = none ∧
    searchAmount "amount:".toList "amount: ,".toList = some [','] ∧
    extract_amount_and_currency "amount: ,".toList = .error () := by decide

/-- Claim C10 as amended: when none of the six symbol/ISO-code amount
patterns matches the body, the first matching pattern is a labeled one
(`amount:`, or `total:` with `amount:` also failing), and the matched group
parses as a number (it is not all commas), the extractor returns the default
currency `USD` rather than a null currency. -/
theorem C10_labeled_amount_defaults_to_usd (body g : Str) (q : ℚ)
    (h1 : searchAmount "$".toList body = none)
    (h2 : searchAmount "USD".toList body = none)
    (h3 : searchAmount "€".toList body = none)
    (h4 : searchAmount "EUR".toList body = none)
    (h5 : searchAmount "¥".toList body = none)
    (h6 : searchAmount "CNY".toList body = none)
    (h7 : searchAmount "amount:".toList body = some g ∨
          (searchAmount "amount:".toList body = none ∧
           searchAmount "total:".toList body = some g))
    (hq : parseAmount (g.filter (fun c => c ≠ ',')) = some q) :
    extract_amount_and_currency body = .ok (some (q, "USD".toList)) := by
  unfold extract_amount_and_currency amount_patterns
  rcases h7 with hg | ⟨h7n, hg⟩
  · simp only [extract_amount_go, h1, h2, h3, h4, h5, h6, hg, hq]
    rfl
  · simp only [extract_amount_go, h1, h2, h3, h4, h5, h6, h7n, hg, hq]
    rfl

/-- Witness for the amended C10: body `Total: 25` matched by the labeled
`total:` pattern yields amount 25 with currency USD. -/
theorem C10_labeled_amount_defaults_to_usd_witness :
    searchAmount "total:".toList "Total: 25".toList = some "25".toList ∧
    parseAmount ("25".toList.filter (fun c => c ≠ ',')) =
      some (Rat.divInt 25 1) ∧
    extract_amount_and_currency "Total: 25".toList =
      .ok (some (Rat.divInt 25 1, "USD".toList)) :=
  ⟨by decide, by decide,
   C10_labeled_amount_defaults_to_usd "Total: 25".toList "25".toList
     (Rat.divInt 25 1) (by decide) (by decide) (by decide) (by decide)
     (by decide) (by decide) (Or.inr ⟨by decide, by decide⟩) (by decide)⟩

/-- Counterexample to C7: subject `invoice` (passing the keyword gate) with
an empty body.  Nothing is found in the message — no amount pattern matches,
no date pattern matches, and the status and counterparty locals hold only
their hard-coded defaults `其他` and `Unknown` — yet the extractor does not
return `None`: the always-nonempty status default satisfies the
`any([amount, status, counterparty, dates])` guard and a record populated
purely with defaults is returned. -/
theorem C7_counterexample :
    financial_keywords.any
      (fun k => strContains k (pyLower "invoice".toList)) = true ∧
    extract_amount_and_currency ([] : Str) = .ok none ∧
    extract_dates ([] : Str) = [] ∧
    identify_status ([] : Str) = "其他".toList ∧
    extract_counterparty "invoice".toList [] = "Unknown".toList ∧
    extract_with_rules (fun _ _ _ => none) "invoice".toList [] ≠ .ok none ∧
    extract_with_rules (fun _ _ _ => none) "invoice".toList [] =
      .ok (some defaultsRecord) := by decide

/-- Claim C7 as amended: the rule-based extractor never returns `None` for
any subject/body pair — the status local always carries the nonempty default
`其他`, so the `any([amount, status, counterparty, dates])` guard is always
satisfied.  It raises exactly when the amount scan raises its `ValueError`
(first matched group all commas); otherwise it returns a populated record
whose status, counterparty and dates fields are the computed values, which
are merely the hard-coded defaults when nothing was extracted from the
message. -/
theorem C7_rules_never_none (convert : ℚ → Str → Str → Option ℚ)
    (subject body : Str) :
    identify_status body ≠ [] ∧
    extract_with_rules convert subject body ≠ .ok none ∧
    (extract_with_rules convert subject body = .error () ↔
      extract_amount_and_currency body = .error ()) ∧
    (extract_amount_and_currency body ≠ .error () →
      ∃ r, extract_with_rules convert subject body = .ok (some r) ∧
        r.status = identify_status body ∧
        r.counterparty = extract_counterparty subject body ∧
        r.dates = (extract_dates body).map (fun kv => (kv.1, some kv.2))) := by
  cases heq : extract_amount_and_currency body with
  | error e =>
    cases e
    refine ⟨identify_status_ne_nil body, ?_, ?_, fun hne => absurd rfl hne⟩
    · simp only [extract_with_rules, heq]
      exact fun hc => Except.noConfusion hc
    · simp only [extract_with_rules, heq]
  | ok amtCur =>
    have hcond : (float_truthy (Option.map Prod.fst amtCur) ||
        !(identify_status body).isEmpty ||
        !(extract_counterparty subject body).isEmpty ||
        !(extract_dates body).isEmpty) = true := by
      rw [identify_status_truthy]
      simp
    refine ⟨identify_status_ne_nil body, ?_, ?_, fun _ => ?_⟩ <;>
      simp only [extract_with_rules, heq]
    · split
      next => exact fun hc => by simp at hc
      next hcond2 => exact absurd hcond hcond2
    · split
      next =>
        exact ⟨fun hc => Except.noConfusion hc, fun hc => Except.noConfusion hc⟩
      next hcond2 => exact absurd hcond hcond2
    · split
      next => exact ⟨_, rfl, rfl, rfl, rfl⟩
      next hcond2 => exact absurd hcond hcond2

/-- Witness for the amended C7 at subject `invoice`, empty body: not `None`,
but the record populated only with the defaults. -/
theorem C7_rules_never_none_witness :
    identify_status ([] : Str) ≠ [] ∧
    extract_with_rules (fun _ _ _ => none) "invoice".toList [] ≠ .ok none ∧
    extract_with_rules (fun _ _ _ => none) "invoice".toList [] =
      .ok (some defaultsRecord) :=
  ⟨(C7_rules_never_none (fun _ _ _ => none) "invoice".toList []).1,
   (C7_rules_never_none (fun _ _ _ => none) "invoice".toList []).2.1,
   by decide⟩
